import Mathlib

/-!
# Plugin endpoints of the Jira client (`plugins.go`)

A shallow embedding of `plugins.go` and a verification of its contract.

* Go strings are byte sequences (`GoString`); a source literal denotes its
  UTF-8 bytes (`lit`).
* `fmt.Sprintf` is modelled for string operands on the directives `%s` and
  `%%` (`Sprintf`); every other directive is outside the model (`none`).
* The shared client (`Client.NewRequestWithContext`, `Client.Do`), the
  package function `NewJiraError` and `context.Background()` are declared
  elsewhere; they are parameters of the development.  They act on an
  explicit world state `σ` (network, heap behind the decode target, response
  bodies).
* A Go pointer or interface value that may be `nil` is an `Option`.
* The operations are run against a recording client (`Client.recording`) to
  speak of the calls they make; recording leaves results and world unchanged
  (`requestAndDecode_recording`).
* The record types are embedded as data (`GoType`), since their JSON form is
  read off the declarations by `encoding/json`; `Marshal` and `Unmarshal`
  model the library on values of JSON documents, with the coercion of
  strings to valid UTF-8 that the library performs.
-/

namespace Jira

/-! ## Go strings -/

/-- A Go `string`: an immutable sequence of bytes. -/
abbrev GoString := List UInt8

/-- The bytes a Go string literal denotes: the UTF-8 encoding of its text. -/
def lit (s : String) : GoString :=
  s.data.flatMap String.utf8EncodeChar

/-! ## `fmt.Sprintf` on string operands -/

/-- The byte `%`. -/
def pct : UInt8 := 37

/-- The byte `s`, the verb of `%s`. -/
def verbS : UInt8 := 115

/-- Join the operands `fmt` reports as unused: `string=a, string=b`. -/
def extraOperands : List GoString → GoString
  | [] => []
  | [a] => lit "string=" ++ a
  | a :: b :: rest => lit "string=" ++ a ++ lit ", " ++ extraOperands (b :: rest)

/-- What `fmt` appends once the format is exhausted: nothing, or the report
of the operands no directive consumed. -/
def finishPrintf : List GoString → GoString
  | [] => []
  | a :: rest => lit "%!(EXTRA " ++ extraOperands (a :: rest) ++ lit ")"

/-- The scanning loop of `fmt`'s `doPrintf` over the bytes of the format,
with the operands not yet consumed.  Bytes other than `%` are copied; `%%`
writes `%`; `%s` writes the next operand's bytes unchanged, or
`%!s(MISSING)` when none is left; a trailing `%` writes `%!(NOVERB)`.  Any
other directive (flags, width, other verbs) is outside the model. -/
def doPrintf : List UInt8 → List GoString → Option GoString
  | [], a => some (finishPrintf a)
  | c :: rest, a =>
    if c = pct then
      match rest with
      | [] => some (lit "%!(NOVERB)" ++ finishPrintf a)
      | v :: rest2 =>
        if v = pct then
          (doPrintf rest2 a).map (fun out => pct :: out)
        else if v = verbS then
          match a with
          | [] => (doPrintf rest2 []).map (fun out => lit "%!s(MISSING)" ++ out)
          | x :: xs => (doPrintf rest2 xs).map (fun out => x ++ out)
        else
          none
    else
      (doPrintf rest a).map (fun out => c :: out)

/-- Model of `fmt.Sprintf(format, a...)` with string operands. -/
def Sprintf (format : GoString) (a : List GoString) : Option GoString :=
  doPrintf format a

/-! ## External declarations -/

/-- The value handed to `Client.Do` as `v interface{}`: a pointer with its
static type. -/
inductive Target (Ptr : Type) where
  | PluginStruct (p : Ptr)
  | PluginDetails (p : Ptr)
  | PluginLicenseDetails (p : Ptr)
  deriving DecidableEq, Repr

/-- The shared client (`*Client`), declared outside `plugins.go`.
`NewRequestWithContext(ctx, method, urlStr, body)` returns
`(*http.Request, error)`; `Do(req, v)` returns `(*Response, error)`.  Both
may act on the world. -/
structure Client (σ Ctx Body Req Resp Err Ptr : Type) where
  NewRequestWithContext :
    Ctx → GoString → GoString → Option Body → σ → (Option Req × Option Err) × σ
  Do : Option Req → Target Ptr → σ → (Option Resp × Option Err) × σ

/-- Package-level declarations used by `plugins.go` and declared elsewhere:
`context.Background()` and `NewJiraError(resp, httpError) error`. -/
structure Externals (σ Ctx Resp Err : Type) where
  Background : Ctx
  NewJiraError : Option Resp → Option Err → σ → Option Err × σ

/-- The service: `type PluginService struct { client *Client }`. -/
structure PluginService (σ Ctx Body Req Resp Err Ptr : Type) where
  client : Client σ Ctx Body Req Resp Err Ptr

/-- The `(*Response, error)` pair an operation returns. -/
abbrev Result (Resp Err : Type) := Option Resp × Option Err

section Operations

variable {σ Ctx Body Req Resp Err Ptr : Type}

/-- Source: `func (s *PluginService) GetPluginsWithContext(ctx, plugins)`. -/
def GetPluginsWithContext (x : Externals σ Ctx Resp Err)
    (s : PluginService σ Ctx Body Req Resp Err Ptr)
    (ctx : Ctx) (plugins : Ptr) (w : σ) : Result Resp Err × σ :=
  let apiEndpoint := lit "rest/plugins/latest/"
  match s.client.NewRequestWithContext ctx (lit "GET") apiEndpoint none w with
  | ((_, some err), w1) => ((none, some err), w1)
  | ((req, none), w1) =>
    match s.client.Do req (Target.PluginStruct plugins) w1 with
    | ((resp, some err), w2) =>
      match x.NewJiraError resp (some err) w2 with
      | (jerr, w3) => ((resp, jerr), w3)
    | ((resp, none), w2) => ((resp, none), w2)

/-- Source: `func (s *PluginService) GetPlugins(plugins)`. -/
def GetPlugins (x : Externals σ Ctx Resp Err)
    (s : PluginService σ Ctx Body Req Resp Err Ptr)
    (plugins : Ptr) (w : σ) : Result Resp Err × σ :=
  GetPluginsWithContext x s x.Background plugins w

/-- Source: `func (s *PluginService) GetPluginDetailsWithContext(ctx, pluginName, plugin)`.
The outer `Option` is `none` only if the format left the modelled part of
`fmt.Sprintf`. -/
def GetPluginDetailsWithContext (x : Externals σ Ctx Resp Err)
    (s : PluginService σ Ctx Body Req Resp Err Ptr)
    (ctx : Ctx) (pluginName : GoString) (plugin : Ptr) (w : σ) :
    Option (Result Resp Err × σ) :=
  (Sprintf (lit "rest/plugins/latest/%s-key") [pluginName]).map fun apiEndpoint =>
    match s.client.NewRequestWithContext ctx (lit "GET") apiEndpoint none w with
    | ((_, some err), w1) => ((none, some err), w1)
    | ((req, none), w1) =>
      match s.client.Do req (Target.PluginDetails plugin) w1 with
      | ((resp, some err), w2) =>
        match x.NewJiraError resp (some err) w2 with
        | (jerr, w3) => ((resp, jerr), w3)
      | ((resp, none), w2) => ((resp, none), w2)

/-- Source: `func (s *PluginService) GetPluginDetails(pluginName, plugin)`. -/
def GetPluginDetails (x : Externals σ Ctx Resp Err)
    (s : PluginService σ Ctx Body Req Resp Err Ptr)
    (pluginName : GoString) (plugin : Ptr) (w : σ) : Option (Result Resp Err × σ) :=
  GetPluginDetailsWithContext x s x.Background pluginName plugin w

/-- Source: `func (s *PluginService) GetPluginLicenseDetailsWithContext(ctx, pluginName, plugin)`. -/
def GetPluginLicenseDetailsWithContext (x : Externals σ Ctx Resp Err)
    (s : PluginService σ Ctx Body Req Resp Err Ptr)
    (ctx : Ctx) (pluginName : GoString) (plugin : Ptr) (w : σ) :
    Option (Result Resp Err × σ) :=
  (Sprintf (lit "rest/plugins/latest/%s-key/license") [pluginName]).map fun apiEndpoint =>
    match s.client.NewRequestWithContext ctx (lit "GET") apiEndpoint none w with
    | ((_, some err), w1) => ((none, some err), w1)
    | ((req, none), w1) =>
      match s.client.Do req (Target.PluginLicenseDetails plugin) w1 with
      | ((resp, some err), w2) =>
        match x.NewJiraError resp (some err) w2 with
        | (jerr, w3) => ((resp, jerr), w3)
      | ((resp, none), w2) => ((resp, none), w2)

/-- Source: `func (s *PluginService) GetPluginLicenseDetails(pluginName, plugin)`. -/
def GetPluginLicenseDetails (x : Externals σ Ctx Resp Err)
    (s : PluginService σ Ctx Body Req Resp Err Ptr)
    (pluginName : GoString) (plugin : Ptr) (w : σ) : Option (Result Resp Err × σ) :=
  GetPluginLicenseDetailsWithContext x s x.Background pluginName plugin w

end Operations

/-! ## Recording the calls an operation makes -/

/-- One call from `plugins.go` to a declaration outside it, with the
arguments passed. -/
inductive Call (Ctx Body Req Resp Err Ptr : Type) where
  | NewRequestWithContext (ctx : Ctx) (method urlStr : GoString) (body : Option Body)
  | Do (req : Option Req) (v : Target Ptr)
  | NewJiraError (resp : Option Resp) (httpError : Option Err)
  deriving DecidableEq, Repr

section Recording

variable {σ Ctx Body Req Resp Err Ptr : Type}

/-- The same client, over a world that also holds the record of calls: each
method behaves as before on the world and appends its call to the record. -/
def Client.recording (c : Client σ Ctx Body Req Resp Err Ptr) :
    Client (σ × List (Call Ctx Body Req Resp Err Ptr)) Ctx Body Req Resp Err Ptr where
  NewRequestWithContext := fun ctx method urlStr body wl =>
    ((c.NewRequestWithContext ctx method urlStr body wl.1).1,
      ((c.NewRequestWithContext ctx method urlStr body wl.1).2,
        wl.2 ++ [Call.NewRequestWithContext ctx method urlStr body]))
  Do := fun req v wl =>
    ((c.Do req v wl.1).1, ((c.Do req v wl.1).2, wl.2 ++ [Call.Do req v]))

/-- The same service over the recording client. -/
def PluginService.recording (s : PluginService σ Ctx Body Req Resp Err Ptr) :
    PluginService (σ × List (Call Ctx Body Req Resp Err Ptr)) Ctx Body Req Resp Err Ptr where
  client := s.client.recording

/-- The same package-level declarations, `NewJiraError` appending its call
to the record. -/
def Externals.recording {Body Req Ptr : Type} (x : Externals σ Ctx Resp Err) :
    Externals (σ × List (Call Ctx Body Req Resp Err Ptr)) Ctx Resp Err where
  Background := x.Background
  NewJiraError := fun resp httpError wl =>
    ((x.NewJiraError resp httpError wl.1).1,
      ((x.NewJiraError resp httpError wl.1).2, wl.2 ++ [Call.NewJiraError resp httpError]))

/-- The requests the record shows were asked of the client: the arguments of
each `NewRequestWithContext` call, in order. -/
def requestsBuilt :
    List (Call Ctx Body Req Resp Err Ptr) → List (Ctx × GoString × GoString × Option Body)
  | [] => []
  | Call.NewRequestWithContext ctx method urlStr body :: rest =>
    (ctx, method, urlStr, body) :: requestsBuilt rest
  | _ :: rest => requestsBuilt rest

/-- The executions the record shows were asked of the client: the arguments
of each `Do` call, in order. -/
def requestsDone : List (Call Ctx Body Req Resp Err Ptr) → List (Option Req × Target Ptr)
  | [] => []
  | Call.Do req v :: rest => (req, v) :: requestsDone rest
  | _ :: rest => requestsDone rest

/-- The URL strings the record shows were requested, in order. -/
def urlsRequested (log : List (Call Ctx Body Req Resp Err Ptr)) : List GoString :=
  (requestsBuilt log).map (fun r => r.2.2.1)

/-- The body the three context-aware operations have in common, as a
function of the endpoint and of the decode target.  It is used to state the
shared lemmas once; each operation is proved equal to its instance. -/
def requestAndDecode (x : Externals σ Ctx Resp Err)
    (s : PluginService σ Ctx Body Req Resp Err Ptr)
    (ctx : Ctx) (apiEndpoint : GoString) (v : Target Ptr) (w : σ) : Result Resp Err × σ :=
  match s.client.NewRequestWithContext ctx (lit "GET") apiEndpoint none w with
  | ((_, some err), w1) => ((none, some err), w1)
  | ((req, none), w1) =>
    match s.client.Do req v w1 with
    | ((resp, some err), w2) =>
      match x.NewJiraError resp (some err) w2 with
      | (jerr, w3) => ((resp, jerr), w3)
    | ((resp, none), w2) => ((resp, none), w2)

/-- The calls expected of one operation started in world `w`: one
`NewRequestWithContext`; then, if it gave no error, one `Do` on the request
it returned and the caller's target; then, if `Do` gave an error, one
`NewJiraError` on what `Do` returned. -/
def expectedCalls (s : PluginService σ Ctx Body Req Resp Err Ptr)
    (ctx : Ctx) (apiEndpoint : GoString) (v : Target Ptr) (w : σ) :
    List (Call Ctx Body Req Resp Err Ptr) :=
  let r := s.client.NewRequestWithContext ctx (lit "GET") apiEndpoint none w
  let d := s.client.Do r.1.1 v r.2
  Call.NewRequestWithContext ctx (lit "GET") apiEndpoint none ::
    (if r.1.2.isNone then
      Call.Do r.1.1 v ::
        (if d.1.2.isNone then [] else [Call.NewJiraError d.1.1 d.1.2])
    else [])

/-- The world expected after one operation started in world `w`: the world
left by the last of the calls of `expectedCalls`. -/
def expectedWorld (x : Externals σ Ctx Resp Err)
    (s : PluginService σ Ctx Body Req Resp Err Ptr)
    (ctx : Ctx) (apiEndpoint : GoString) (v : Target Ptr) (w : σ) : σ :=
  let r := s.client.NewRequestWithContext ctx (lit "GET") apiEndpoint none w
  let d := s.client.Do r.1.1 v r.2
  if r.1.2.isNone then
    (if d.1.2.isNone then d.2 else (x.NewJiraError d.1.1 d.1.2 d.2).2)
  else r.2

/-- The six exported functions of `plugins.go`, each with its arguments. -/
inductive Operation (Ctx Ptr : Type) where
  | GetPluginsWithContext (ctx : Ctx) (plugins : Ptr)
  | GetPlugins (plugins : Ptr)
  | GetPluginDetailsWithContext (ctx : Ctx) (pluginName : GoString) (plugin : Ptr)
  | GetPluginDetails (pluginName : GoString) (plugin : Ptr)
  | GetPluginLicenseDetailsWithContext (ctx : Ctx) (pluginName : GoString) (plugin : Ptr)
  | GetPluginLicenseDetails (pluginName : GoString) (plugin : Ptr)

/-- Run the function an `Operation` names, on its arguments. -/
def Operation.run (x : Externals σ Ctx Resp Err)
    (s : PluginService σ Ctx Body Req Resp Err Ptr) :
    Operation Ctx Ptr → σ → Option (Result Resp Err × σ)
  | Operation.GetPluginsWithContext ctx plugins, w =>
    some (Jira.GetPluginsWithContext x s ctx plugins w)
  | Operation.GetPlugins plugins, w => some (Jira.GetPlugins x s plugins w)
  | Operation.GetPluginDetailsWithContext ctx pluginName plugin, w =>
    Jira.GetPluginDetailsWithContext x s ctx pluginName plugin w
  | Operation.GetPluginDetails pluginName plugin, w =>
    Jira.GetPluginDetails x s pluginName plugin w
  | Operation.GetPluginLicenseDetailsWithContext ctx pluginName plugin, w =>
    Jira.GetPluginLicenseDetailsWithContext x s ctx pluginName plugin w
  | Operation.GetPluginLicenseDetails pluginName plugin, w =>
    Jira.GetPluginLicenseDetails x s pluginName plugin w

/-- The cancellation scope in force: the caller's, or the background one for
a default variant. -/
def Operation.scope (x : Externals σ Ctx Resp Err) : Operation Ctx Ptr → Ctx
  | Operation.GetPluginsWithContext ctx _ => ctx
  | Operation.GetPlugins _ => x.Background
  | Operation.GetPluginDetailsWithContext ctx _ _ => ctx
  | Operation.GetPluginDetails _ _ => x.Background
  | Operation.GetPluginLicenseDetailsWithContext ctx _ _ => ctx
  | Operation.GetPluginLicenseDetails _ _ => x.Background

/-- The path the interface table of the specification gives each operation:
`rest/plugins/latest/`, `rest/plugins/latest/{key}-key`,
`rest/plugins/latest/{key}-key/license`. -/
def Operation.specPath : Operation Ctx Ptr → GoString
  | Operation.GetPluginsWithContext _ _ => lit "rest/plugins/latest/"
  | Operation.GetPlugins _ => lit "rest/plugins/latest/"
  | Operation.GetPluginDetailsWithContext _ key _ =>
    lit "rest/plugins/latest/" ++ key ++ lit "-key"
  | Operation.GetPluginDetails key _ => lit "rest/plugins/latest/" ++ key ++ lit "-key"
  | Operation.GetPluginLicenseDetailsWithContext _ key _ =>
    lit "rest/plugins/latest/" ++ key ++ lit "-key/license"
  | Operation.GetPluginLicenseDetails key _ =>
    lit "rest/plugins/latest/" ++ key ++ lit "-key/license"

/-- The caller's output target, as the operation's signature types it. -/
def Operation.target : Operation Ctx Ptr → Target Ptr
  | Operation.GetPluginsWithContext _ plugins => Target.PluginStruct plugins
  | Operation.GetPlugins plugins => Target.PluginStruct plugins
  | Operation.GetPluginDetailsWithContext _ _ plugin => Target.PluginDetails plugin
  | Operation.GetPluginDetails _ plugin => Target.PluginDetails plugin
  | Operation.GetPluginLicenseDetailsWithContext _ _ plugin => Target.PluginLicenseDetails plugin
  | Operation.GetPluginLicenseDetails _ plugin => Target.PluginLicenseDetails plugin

/-- What the client answers when `op`, started in world `w`, asks it to build
its request: `((req, err), world after)`. -/
def Operation.built (x : Externals σ Ctx Resp Err)
    (s : PluginService σ Ctx Body Req Resp Err Ptr) (op : Operation Ctx Ptr) (w : σ) :
    (Option Req × Option Err) × σ :=
  s.client.NewRequestWithContext (op.scope x) (lit "GET") op.specPath none w

/-- What the client's `Do` answers on that request and the caller's target,
in the world request construction left: `((resp, err), world after)`. -/
def Operation.done (x : Externals σ Ctx Resp Err)
    (s : PluginService σ Ctx Body Req Resp Err Ptr) (op : Operation Ctx Ptr) (w : σ) :
    (Option Resp × Option Err) × σ :=
  s.client.Do (op.built x s w).1.1 op.target (op.built x s w).2

end Recording

/-! ## A stub transport

A concrete client in the manner of a test double: requests are their URL
strings, responses are status codes, the world counts the requests executed. -/

/-- Errors of the stub transport and the domain error wrapping one. -/
inductive StubErr where
  | construct
  | status (code : Nat)
  | decode
  | jira (resp : Option Nat) (cause : StubErr)
  deriving DecidableEq, Repr

/-- A stub client: request construction fails when `failBuild`; `Do` answers
with the status `code`, with an error unless the status is 2xx or, when
`badJSON`, with a decode error. -/
def stubClient (failBuild : Bool) (code : Nat) (badJSON : Bool) :
    Client Nat Unit Unit GoString Nat StubErr Nat where
  NewRequestWithContext := fun _ _ urlStr _ w =>
    if failBuild then ((none, some StubErr.construct), w) else ((some urlStr, none), w)
  Do := fun _ _ w =>
    if 200 ≤ code ∧ code < 300 then
      (if badJSON then ((some code, some StubErr.decode), w + 1) else ((some code, none), w + 1))
    else ((some code, some (StubErr.status code)), w + 1)

/-- A stub service over `stubClient`. -/
def stubService (failBuild : Bool) (code : Nat) (badJSON : Bool) :
    PluginService Nat Unit Unit GoString Nat StubErr Nat where
  client := stubClient failBuild code badJSON

/-- Stub package-level declarations: `NewJiraError` wraps a non-nil cause
with the response and maps a nil cause to nil. -/
def stubExternals : Externals Nat Unit Nat StubErr where
  Background := ()
  NewJiraError := fun resp httpError w => (httpError.map (StubErr.jira resp), w)

/-! ## UTF-8, as `unicode/utf8` decides it -/

/-- A continuation byte, `0x80` to `0xBF`. -/
def isCont (b : UInt8) : Bool :=
  decide (0x80 ≤ b) && decide (b ≤ 0xBF)

/-- The range `utf8` accepts for the second byte after the leading byte
`b0`: narrowed after `0xE0`, `0xED`, `0xF0` and `0xF4` (no overlong forms, no
surrogates, nothing above U+10FFFF), any continuation byte otherwise. -/
def acceptSecond (b0 b1 : UInt8) : Bool :=
  if b0 = 0xE0 then decide (0xA0 ≤ b1) && decide (b1 ≤ 0xBF)
  else if b0 = 0xED then decide (0x80 ≤ b1) && decide (b1 ≤ 0x9F)
  else if b0 = 0xF0 then decide (0x90 ≤ b1) && decide (b1 ≤ 0xBF)
  else if b0 = 0xF4 then decide (0x80 ≤ b1) && decide (b1 ≤ 0x8F)
  else isCont b1

/-- The size `utf8.DecodeRuneInString` reports for a well-formed encoding at
the head of `s`; `none` where it reports `(RuneError, 1)` or the string is
empty. -/
def runeSize : List UInt8 → Option Nat
  | [] => none
  | b0 :: rest =>
    if b0 < 0x80 then some 1
    else if b0 < 0xC2 then none
    else if b0 < 0xE0 then
      match rest with
      | b1 :: _ => if acceptSecond b0 b1 then some 2 else none
      | _ => none
    else if b0 < 0xF0 then
      match rest with
      | b1 :: b2 :: _ => if acceptSecond b0 b1 && isCont b2 then some 3 else none
      | _ => none
    else if b0 < 0xF5 then
      match rest with
      | b1 :: b2 :: b3 :: _ =>
        if acceptSecond b0 b1 && isCont b2 && isCont b3 then some 4 else none
      | _ => none
    else none

/-- The loop of `toValidUTF8`, with a bound on the iterations left. -/
def toValidUTF8Aux : Nat → List UInt8 → List UInt8
  | 0, _ => []
  | _, [] => []
  | fuel + 1, b :: rest =>
    match runeSize (b :: rest) with
    | some n => (b :: rest).take n ++ toValidUTF8Aux fuel ((b :: rest).drop n)
    | none => [0xEF, 0xBF, 0xBD] ++ toValidUTF8Aux fuel rest

/-- The text `encoding/json` writes and reads for the bytes `s`: well-formed
encodings are kept, every other byte becomes U+FFFD (`EF BF BD`). -/
def toValidUTF8 (s : GoString) : GoString :=
  toValidUTF8Aux s.length s

/-- The loop of `ValidString`, with a bound on the iterations left. -/
def ValidStringAux : Nat → List UInt8 → Bool
  | _, [] => true
  | 0, _ :: _ => false
  | fuel + 1, b :: rest =>
    match runeSize (b :: rest) with
    | some n => ValidStringAux fuel ((b :: rest).drop n)
    | none => false

/-- Model of `utf8.ValidString`: the bytes are a sequence of well-formed
encodings. -/
def ValidString (s : GoString) : Bool :=
  ValidStringAux s.length s

/-! ## The data-transfer types and `encoding/json`

`plugins.go` declares its records and leaves their JSON form to
`encoding/json`, which reads it off the declaration: the field order, the
`json:"..."` tags and the field types.  The declarations are therefore
embedded as data (`GoType`), and `Marshal`/`Unmarshal` model the library on
the kinds of type they use.  A JSON document is modelled by the value it
denotes (`JSON`), a string by its UTF-8 text. -/

/-- The Go types the declarations of `plugins.go` are built from.  A struct
is the list of its fields in declaration order: Go name, JSON name of the
tag, type. -/
inductive GoType where
  | string
  | bool
  | int
  | int64
  | slice (elem : GoType)
  | struct (fields : List (String × String × GoType))

/-- One field of a struct type: Go name, JSON name of its tag, type. -/
abbrev Field := String × String × GoType

/-- The field declared as `name type` with tag `json:"tag"`. -/
def field (name tag : String) (type : GoType) : Field :=
  (name, tag, type)

/-- Go values of those types.  `int` carries the value of an `int` or an
`int64`; `nilSlice` is the nil slice, `slice []` the empty non-nil one;
a struct is the list of its field values in declaration order. -/
inductive GoValue where
  | string (s : GoString)
  | bool (b : Bool)
  | int (i : Int)
  | nilSlice
  | slice (elems : List GoValue)
  | struct (fields : List GoValue)

/-- The value a JSON document denotes.  Numbers are integer literals, the
only ones `Marshal` writes for these types and integer fields accept. -/
inductive JSON where
  | null
  | bool (b : Bool)
  | number (n : Int)
  | string (s : GoString)
  | array (elems : List JSON)
  | object (members : List (GoString × JSON))

/-- The range of `int64`, and of `int` on 64-bit targets. -/
def inInt64 (i : Int) : Bool :=
  decide (-9223372036854775808 ≤ i) && decide (i ≤ 9223372036854775807)

mutual
/-- The zero value of a type: what a fresh variable of the type holds. -/
def zero : GoType → GoValue
  | GoType.string => GoValue.string []
  | GoType.bool => GoValue.bool false
  | GoType.int => GoValue.int 0
  | GoType.int64 => GoValue.int 0
  | GoType.slice _ => GoValue.nilSlice
  | GoType.struct fs => GoValue.struct (zeroFields fs)
/-- The zero values of the fields of a struct. -/
def zeroFields : List (String × String × GoType) → List GoValue
  | [] => []
  | f :: fs => zero f.2.2 :: zeroFields fs
end

mutual
/-- Whether the value is a value of the type. -/
def hasType : GoType → GoValue → Bool
  | GoType.string, GoValue.string _ => true
  | GoType.bool, GoValue.bool _ => true
  | GoType.int, GoValue.int i => inInt64 i
  | GoType.int64, GoValue.int i => inInt64 i
  | GoType.slice _, GoValue.nilSlice => true
  | GoType.slice e, GoValue.slice xs => haveType e xs
  | GoType.struct fs, GoValue.struct vs => fieldsHaveType fs vs
  | _, _ => false
/-- Whether all the values are values of the element type. -/
def haveType : GoType → List GoValue → Bool
  | _, [] => true
  | e, v :: vs => hasType e v && haveType e vs
/-- Whether the values are, field by field, values of the field types. -/
def fieldsHaveType : List (String × String × GoType) → List GoValue → Bool
  | [], [] => true
  | f :: fs, v :: vs => hasType f.2.2 v && fieldsHaveType fs vs
  | _, _ => false
end

mutual
/-- Whether every string inside the value is valid UTF-8. -/
def validStrings : GoValue → Bool
  | GoValue.string s => ValidString s
  | GoValue.slice xs => allValidStrings xs
  | GoValue.struct vs => allValidStrings vs
  | _ => true
/-- Whether every string inside each of the values is valid UTF-8. -/
def allValidStrings : List GoValue → Bool
  | [] => true
  | v :: vs => validStrings v && allValidStrings vs
end

mutual
/-- Model of `json.Marshal` at a type: a string is written as its text
coerced to valid UTF-8, a bool and an integer as themselves, a nil slice as
`null`, a slice as the array of its elements, a struct as the object of its
fields in declaration order, each under the JSON name of its tag.  `none` is
an ill-typed value. -/
def Marshal : GoType → GoValue → Option JSON
  | GoType.string, GoValue.string s => some (JSON.string (toValidUTF8 s))
  | GoType.bool, GoValue.bool b => some (JSON.bool b)
  | GoType.int, GoValue.int i => some (JSON.number i)
  | GoType.int64, GoValue.int i => some (JSON.number i)
  | GoType.slice _, GoValue.nilSlice => some JSON.null
  | GoType.slice e, GoValue.slice xs => (marshalElems e xs).map JSON.array
  | GoType.struct fs, GoValue.struct vs => (marshalFields fs vs).map JSON.object
  | _, _ => none
/-- The elements of a slice, marshalled in order. -/
def marshalElems : GoType → List GoValue → Option (List JSON)
  | _, [] => some []
  | e, v :: vs =>
    match Marshal e v, marshalElems e vs with
    | some j, some js => some (j :: js)
    | _, _ => none
/-- The fields of a struct, marshalled in order under their JSON names. -/
def marshalFields :
    List (String × String × GoType) → List GoValue → Option (List (GoString × JSON))
  | [], [] => some []
  | f :: fs, v :: vs =>
    match Marshal f.2.2 v, marshalFields fs vs with
    | some j, some ms => some ((lit f.2.1, j) :: ms)
    | _, _ => none
  | _, _ => none
end

/-- Case folding of a member name as `encoding/json` compares it against
ASCII field names: `a`-`z` become `A`-`Z`, and the two letters outside ASCII
that fold onto an ASCII letter, U+017F (`C5 BF`) and U+212A (`E2 84 AA`),
become `S` and `K`; every other byte is kept. -/
def foldName : List UInt8 → List UInt8
  | [] => []
  | 0xC5 :: 0xBF :: rest => 0x53 :: foldName rest
  | 0xE2 :: 0x84 :: 0xAA :: rest => 0x4B :: foldName rest
  | c :: rest => (if 0x61 ≤ c ∧ c ≤ 0x7A then c - 0x20 else c) :: foldName rest

/-- Index of the first field whose JSON name is exactly `key`. -/
def findExact (key : GoString) : List Field → Option Nat
  | [] => none
  | f :: fs => if lit f.2.1 = key then some 0 else (findExact key fs).map (fun i => i + 1)

/-- Index of the first field whose JSON name equals `key` under case
folding. -/
def findFolded (key : GoString) : List Field → Option Nat
  | [] => none
  | f :: fs =>
    if foldName (lit f.2.1) = foldName key then some 0
    else (findFolded key fs).map (fun i => i + 1)

/-- The field a member name selects when decoding into a struct: an exact
match if there is one, a case-insensitive one otherwise. -/
def findField (fs : List Field) (key : GoString) : Option Nat :=
  match findExact key fs with
  | some i => some i
  | none => findFolded key fs

mutual
/-- Model of `json.Unmarshal` of a document into a variable of type `t`
holding `cur`; `none` is an error.  `null` makes a slice nil and leaves
anything else as it is; a string, a bool or an integer in range replaces the
value; an array decodes element by element into the elements present, or
into zero values beyond them; an object decodes member by member, in order,
into the field each name selects, and skips the names that select none. -/
def Unmarshal : GoType → JSON → GoValue → Option GoValue
  | GoType.slice _, JSON.null, _ => some GoValue.nilSlice
  | _, JSON.null, cur => some cur
  | GoType.string, JSON.string s, _ => some (GoValue.string (toValidUTF8 s))
  | GoType.bool, JSON.bool b, _ => some (GoValue.bool b)
  | GoType.int, JSON.number n, _ => if inInt64 n then some (GoValue.int n) else none
  | GoType.int64, JSON.number n, _ => if inInt64 n then some (GoValue.int n) else none
  | GoType.slice e, JSON.array js, GoValue.nilSlice =>
    (unmarshalElems e js []).map GoValue.slice
  | GoType.slice e, JSON.array js, GoValue.slice cur =>
    (unmarshalElems e js cur).map GoValue.slice
  | GoType.struct fs, JSON.object ms, GoValue.struct cur =>
    (unmarshalMembers fs ms cur).map GoValue.struct
  | _, _, _ => none
/-- The elements of an array, decoded in order into the elements of `cur`,
or into zero values where `cur` has run out. -/
def unmarshalElems : GoType → List JSON → List GoValue → Option (List GoValue)
  | _, [], _ => some []
  | e, j :: js, cur =>
    match Unmarshal e j (cur.headD (zero e)), unmarshalElems e js cur.tail with
    | some v, some vs => some (v :: vs)
    | _, _ => none
/-- The members of an object, decoded in order into the field values `cur`. -/
def unmarshalMembers :
    List (String × String × GoType) → List (GoString × JSON) → List GoValue →
      Option (List GoValue)
  | _, [], cur => some cur
  | fs, (key, j) :: ms, cur =>
    match findField fs key with
    | none => unmarshalMembers fs ms cur
    | some i =>
      match fs[i]?, cur[i]? with
      | some f, some c =>
        match Unmarshal f.2.2 j c with
        | some v => unmarshalMembers fs ms (cur.set i v)
        | none => none
      | _, _ => none
end

/-- Whether a Go field name is exported: it starts with `A`-`Z`. -/
def exported (name : String) : Bool :=
  match name.data with
  | c :: _ => decide ('A' ≤ c) && decide (c ≤ 'Z')
  | [] => false

/-- Whether a tag is a plain JSON name: not empty, not `-`, made of ASCII
letters, digits, `-` and `_`, so without options. -/
def plainTag (tag : String) : Bool :=
  tag != "" && tag != "-" &&
    tag.data.all (fun c => c.isAlphanum || c == '-' || c == '_')

/-- Whether the JSON names of the fields are pairwise different; fields that
share a name are dropped by `encoding/json`. -/
def distinctTags (fs : List Field) : Bool :=
  decide ((fs.map (fun f => lit f.2.1)).Nodup)

mutual
/-- The declarations `Marshal` and `Unmarshal` are a model of: every field of
every struct is exported and carries a plain tag, and no two fields of one
struct share a JSON name. -/
def modelled : GoType → Bool
  | GoType.slice e => modelled e
  | GoType.struct fs => fieldsModelled fs && distinctTags fs
  | _ => true
/-- That condition on each field of a struct. -/
def fieldsModelled : List (String × String × GoType) → Bool
  | [] => true
  | f :: fs => exported f.1 && plainTag f.2.1 && modelled f.2.2 && fieldsModelled fs
end

/-- The round-trip property of one value: at every modelled type it belongs
to, if its strings are valid UTF-8, it marshals, and the document decodes
into a fresh variable of the type as the value itself. -/
def RoundTrips (v : GoValue) : Prop :=
  ∀ t : GoType, modelled t = true → hasType t v = true → validStrings v = true →
    ∃ j, Marshal t v = some j ∧ Unmarshal t j (zero t) = some v

/-! ### The declarations of `plugins.go` -/

/-- Source: `type Links struct`. -/
def Links : GoType :=
  GoType.struct [
    field "Self" "self" GoType.string,
    field "PluginSummary" "plugin-summary" GoType.string,
    field "Modify" "modify" GoType.string,
    field "PluginIcon" "plugin-icon" GoType.string,
    field "PluginLogo" "plugin-logo" GoType.string,
    field "Manage" "manage" GoType.string]

/-- Source: `type Vendor struct`. -/
def Vendor : GoType :=
  GoType.struct [
    field "Name" "name" GoType.string,
    field "MarketplaceLink" "marketplaceLink" GoType.string,
    field "Link" "link" GoType.string]

/-- Source: `type Plugin struct`. -/
def Plugin : GoType :=
  GoType.struct [
    field "Enabled" "enabled" GoType.bool,
    field "Links" "links" Links,
    field "Name" "name" GoType.string,
    field "Version" "version" GoType.string,
    field "UserInstalled" "userInstalled" GoType.bool,
    field "Optional" "optional" GoType.bool,
    field "Static" "static" GoType.bool,
    field "Unloadable" "unloadable" GoType.bool,
    field "Description" "description" GoType.string,
    field "Key" "key" GoType.string,
    field "UsesLicensing" "usesLicensing" GoType.bool,
    field "Remotable" "remotable" GoType.bool,
    field "Vendor" "vendor" Vendor]

/-- Source: `type LinksCommon struct`. -/
def LinksCommon : GoType :=
  GoType.struct [
    field "Self" "self" GoType.string,
    field "Marketplace" "marketplace" GoType.string,
    field "Notifications" "notifications" GoType.string,
    field "Requests" "requests" GoType.string,
    field "Categories" "categories" GoType.string,
    field "Banners" "banners" GoType.string,
    field "Featured" "featured" GoType.string,
    field "HighestRated" "highest-rated" GoType.string,
    field "TopGrossing" "top-grossing" GoType.string,
    field "Popular" "popular" GoType.string,
    field "Trending" "trending" GoType.string,
    field "Atlassian" "atlassian" GoType.string,
    field "Available" "available" GoType.string,
    field "TopVendor" "top-vendor" GoType.string,
    field "EnterSafeMode" "enter-safe-mode" GoType.string,
    field "OsgiBundles" "osgi-bundles" GoType.string]

/-- Source: `type PluginStruct struct`. -/
def PluginStruct : GoType :=
  GoType.struct [
    field "Plugins" "plugins" (GoType.slice Plugin),
    field "Links" "links" LinksCommon]

/-- Source: `type PluginDetails struct`, its anonymous structs inline. -/
def PluginDetails : GoType :=
  GoType.struct [
    field "Links" "links" (GoType.struct [
      field "Self" "self" GoType.string,
      field "PluginSummary" "plugin-summary" GoType.string,
      field "Modify" "modify" GoType.string,
      field "PluginIcon" "plugin-icon" GoType.string,
      field "PluginLogo" "plugin-logo" GoType.string,
      field "Manage" "manage" GoType.string]),
    field "Key" "key" GoType.string,
    field "Enabled" "enabled" GoType.bool,
    field "EnabledByDefault" "enabledByDefault" GoType.bool,
    field "Version" "version" GoType.string,
    field "Description" "description" GoType.string,
    field "Name" "name" GoType.string,
    field "Modules" "modules" (GoType.slice (GoType.struct [
      field "Key" "key" GoType.string,
      field "CompleteKey" "completeKey" GoType.string,
      field "Links" "links" (GoType.struct [
        field "Self" "self" GoType.string,
        field "Modify" "modify" GoType.string,
        field "Plugin" "plugin" GoType.string]),
      field "Enabled" "enabled" GoType.bool,
      field "Optional" "optional" GoType.bool,
      field "Name" "name" GoType.string,
      field "RecognisableType" "recognisableType" GoType.bool,
      field "Broken" "broken" GoType.bool])),
    field "UserInstalled" "userInstalled" GoType.bool,
    field "Optional" "optional" GoType.bool,
    field "UnrecognisedModuleTypes" "unrecognisedModuleTypes" GoType.bool,
    field "Unloadable" "unloadable" GoType.bool,
    field "Static" "static" GoType.bool,
    field "UsesLicensing" "usesLicensing" GoType.bool,
    field "Remotable" "remotable" GoType.bool,
    field "Vendor" "vendor" (GoType.struct [
      field "Name" "name" GoType.string,
      field "MarketplaceLink" "marketplaceLink" GoType.string,
      field "Link" "link" GoType.string])]

/-- Source: `type PluginLicenseDetails struct`, its anonymous struct inline. -/
def PluginLicenseDetails : GoType :=
  GoType.struct [
    field "Links" "links" (GoType.struct [
      field "Self" "self" GoType.string,
      field "Alternate" "alternate" GoType.string,
      field "License" "license" GoType.string,
      field "UpdateLicense" "update-license" GoType.string,
      field "ValidateDowngrade" "validate-downgrade" GoType.string,
      field "LicenseCallback" "license-callback" GoType.string]),
    field "PluginKey" "pluginKey" GoType.string,
    field "Valid" "valid" GoType.bool,
    field "Evaluation" "evaluation" GoType.bool,
    field "NearlyExpired" "nearlyExpired" GoType.bool,
    field "MaximumNumberOfUsers" "maximumNumberOfUsers" GoType.int,
    field "MaintenanceExpiryDate" "maintenanceExpiryDate" GoType.int64,
    field "MaintenanceExpired" "maintenanceExpired" GoType.bool,
    field "LicenseType" "licenseType" GoType.string,
    field "LicenseTypeDescriptionKey" "licenseTypeDescriptionKey" GoType.string,
    field "CreationDateString" "creationDateString" GoType.string,
    field "RawLicense" "rawLicense" GoType.string,
    field "Renewable" "renewable" GoType.bool,
    field "MaintenanceExpiryDateString" "maintenanceExpiryDateString" GoType.string,
    field "OrganizationName" "organizationName" GoType.string,
    field "ContactEmail" "contactEmail" GoType.string,
    field "Enterprise" "enterprise" GoType.bool,
    field "DataCenter" "dataCenter" GoType.bool,
    field "Subscription" "subscription" GoType.bool,
    field "Active" "active" GoType.bool,
    field "AutoRenewal" "autoRenewal" GoType.bool,
    field "Upgradable" "upgradable" GoType.bool,
    field "Crossgradeable" "crossgradeable" GoType.bool,
    field "PurchasePastServerCutoffDate" "purchasePastServerCutoffDate" GoType.bool,
    field "TypeI18NSingular" "typeI18nSingular" GoType.string,
    field "TypeI18NPlural" "typeI18nPlural" GoType.string,
    field "SupportEntitlementNumber" "supportEntitlementNumber" GoType.string]

/-! ### Sample values -/

/-- A `PluginStruct` with no plugins whose `Links.Self` is the single byte
`0xFF`, which is not valid UTF-8; every other link is empty. -/
def invalidSelf : GoValue :=
  GoValue.struct [
    GoValue.nilSlice,
    GoValue.struct (GoValue.string [0xFF] :: List.replicate 15 (GoValue.string []))]

/-- The value `invalidSelf` comes back as: `Links.Self` is U+FFFD. -/
def replacedSelf : GoValue :=
  GoValue.struct [
    GoValue.nilSlice,
    GoValue.struct
      (GoValue.string [0xEF, 0xBF, 0xBD] :: List.replicate 15 (GoValue.string []))]

/-- A populated `PluginStruct`: one enabled plugin with its links and
vendor, and the marketplace link set. -/
def samplePlugins : GoValue :=
  GoValue.struct [
    GoValue.slice [
      GoValue.struct [
        GoValue.bool true,
        GoValue.struct [
          GoValue.string (lit "/rest/plugins/1.0/jira-core-key"),
          GoValue.string (lit "/rest/plugins/1.0/jira-core-key/summary"),
          GoValue.string [],
          GoValue.string [],
          GoValue.string [],
          GoValue.string []],
        GoValue.string (lit "Jira Core"),
        GoValue.string (lit "9.4.0"),
        GoValue.bool false,
        GoValue.bool false,
        GoValue.bool true,
        GoValue.bool false,
        GoValue.string (lit "Kernfunktionen für Jira"),
        GoValue.string (lit "jira-core"),
        GoValue.bool false,
        GoValue.bool false,
        GoValue.struct [
          GoValue.string (lit "Atlassian"),
          GoValue.string [],
          GoValue.string (lit "http://www.atlassian.com/")]]],
    GoValue.struct
      (GoValue.string (lit "/rest/plugins/1.0/") ::
        GoValue.string (lit "/rest/plugins/1.0/marketplace") ::
        List.replicate 14 (GoValue.string []))]

/-! ## Lemmas on `Sprintf` -/

theorem finishPrintf_nil : finishPrintf [] = [] := rfl

/-- Bytes of the format before the first `%` are copied to the output. -/
theorem doPrintf_copy (pre rest : List UInt8) (a : List GoString) (h : pct ∉ pre) :
    doPrintf (pre ++ rest) a = (doPrintf rest a).map (fun out => pre ++ out) := by
  induction pre with
  | nil => simp
  | cons c pre ih =>
    have hc : c ≠ pct := fun e => h (by simp [e])
    have hp : pct ∉ pre := fun e => h (by simp [e])
    rw [List.cons_append, doPrintf.eq_def]
    simp only [if_neg hc]
    rw [ih hp]
    simp [Option.map_map, Function.comp_def]

/-- A format free of `%`, with no operand left, is its own output. -/
theorem doPrintf_plain (post : List UInt8) (h : pct ∉ post) :
    doPrintf post [] = some post := by
  have := doPrintf_copy post [] [] h
  simpa [doPrintf, finishPrintf] using this

/-- The directive `%s` writes the next operand's bytes unchanged. -/
theorem doPrintf_verbS (rest : List UInt8) (x : GoString) (xs : List GoString) :
    doPrintf (pct :: verbS :: rest) (x :: xs) = (doPrintf rest xs).map (fun out => x ++ out) := by
  rw [doPrintf.eq_def]
  simp [show verbS ≠ pct by decide]

/-- A format with the single directive `%s` between two `%`-free parts
yields the first part, the operand, the second part. -/
theorem Sprintf_one_verbS (pre post : List UInt8) (x : GoString)
    (hpre : pct ∉ pre) (hpost : pct ∉ post) :
    Sprintf (pre ++ pct :: verbS :: post) [x] = some (pre ++ x ++ post) := by
  simp [Sprintf, doPrintf_copy _ _ _ hpre, doPrintf_verbS, doPrintf_plain _ hpost]

theorem Sprintf_details (pluginName : GoString) :
    Sprintf (lit "rest/plugins/latest/%s-key") [pluginName]
      = some (lit "rest/plugins/latest/" ++ pluginName ++ lit "-key") := by
  have h : lit "rest/plugins/latest/%s-key"
      = lit "rest/plugins/latest/" ++ pct :: verbS :: lit "-key" := by decide
  rw [h]
  exact Sprintf_one_verbS _ _ _ (by decide) (by decide)

theorem Sprintf_license (pluginName : GoString) :
    Sprintf (lit "rest/plugins/latest/%s-key/license") [pluginName]
      = some (lit "rest/plugins/latest/" ++ pluginName ++ lit "-key/license") := by
  have h : lit "rest/plugins/latest/%s-key/license"
      = lit "rest/plugins/latest/" ++ pct :: verbS :: lit "-key/license" := by decide
  rw [h]
  exact Sprintf_one_verbS _ _ _ (by decide) (by decide)

/-! ## Lemmas on the operations -/

section OperationLemmas

variable {σ Ctx Body Req Resp Err Ptr : Type}

theorem GetPluginsWithContext_eq (x : Externals σ Ctx Resp Err)
    (s : PluginService σ Ctx Body Req Resp Err Ptr) (ctx : Ctx) (plugins : Ptr) (w : σ) :
    GetPluginsWithContext x s ctx plugins w
      = requestAndDecode x s ctx (lit "rest/plugins/latest/") (Target.PluginStruct plugins) w :=
  rfl

theorem GetPluginDetailsWithContext_eq (x : Externals σ Ctx Resp Err)
    (s : PluginService σ Ctx Body Req Resp Err Ptr) (ctx : Ctx) (pluginName : GoString)
    (plugin : Ptr) (w : σ) :
    GetPluginDetailsWithContext x s ctx pluginName plugin w
      = some (requestAndDecode x s ctx (lit "rest/plugins/latest/" ++ pluginName ++ lit "-key")
          (Target.PluginDetails plugin) w) := by
  unfold GetPluginDetailsWithContext
  rw [Sprintf_details]
  rfl

theorem GetPluginLicenseDetailsWithContext_eq (x : Externals σ Ctx Resp Err)
    (s : PluginService σ Ctx Body Req Resp Err Ptr) (ctx : Ctx) (pluginName : GoString)
    (plugin : Ptr) (w : σ) :
    GetPluginLicenseDetailsWithContext x s ctx pluginName plugin w
      = some (requestAndDecode x s ctx
          (lit "rest/plugins/latest/" ++ pluginName ++ lit "-key/license")
          (Target.PluginLicenseDetails plugin) w) := by
  unfold GetPluginLicenseDetailsWithContext
  rw [Sprintf_license]
  rfl

/-- Recording changes nothing but the record: the result and the world are
those of the plain run, and the record grows by `expectedCalls`. -/
theorem requestAndDecode_recording (x : Externals σ Ctx Resp Err)
    (s : PluginService σ Ctx Body Req Resp Err Ptr) (ctx : Ctx) (apiEndpoint : GoString)
    (v : Target Ptr) (w : σ) (log : List (Call Ctx Body Req Resp Err Ptr)) :
    requestAndDecode x.recording s.recording ctx apiEndpoint v (w, log)
      = ((requestAndDecode x s ctx apiEndpoint v w).1,
          ((requestAndDecode x s ctx apiEndpoint v w).2,
            log ++ expectedCalls s ctx apiEndpoint v w)) := by
  unfold requestAndDecode expectedCalls
  simp only [PluginService.recording, Client.recording, Externals.recording]
  rcases hr : s.client.NewRequestWithContext ctx (lit "GET") apiEndpoint none w
    with ⟨⟨req, _ | e⟩, w1⟩
  · rcases hd : s.client.Do req v w1 with ⟨⟨resp, _ | e2⟩, w2⟩
    · simp [hd]
    · simp [hd]
  · simp

/-- The world after the plain run is the world left by the last call. -/
theorem requestAndDecode_world (x : Externals σ Ctx Resp Err)
    (s : PluginService σ Ctx Body Req Resp Err Ptr) (ctx : Ctx) (apiEndpoint : GoString)
    (v : Target Ptr) (w : σ) :
    (requestAndDecode x s ctx apiEndpoint v w).2 = expectedWorld x s ctx apiEndpoint v w := by
  unfold requestAndDecode expectedWorld
  rcases hr : s.client.NewRequestWithContext ctx (lit "GET") apiEndpoint none w
    with ⟨⟨req, _ | e⟩, w1⟩
  · rcases hd : s.client.Do req v w1 with ⟨⟨resp, _ | e2⟩, w2⟩
    · simp [hd]
    · simp [hd]
  · simp

theorem requestsBuilt_expectedCalls
    (s : PluginService σ Ctx Body Req Resp Err Ptr) (ctx : Ctx) (apiEndpoint : GoString)
    (v : Target Ptr) (w : σ) :
    requestsBuilt (expectedCalls s ctx apiEndpoint v w)
      = [(ctx, lit "GET", apiEndpoint, none)] := by
  unfold expectedCalls
  simp only []
  split <;> [split; skip] <;> simp [requestsBuilt]

theorem requestsDone_expectedCalls
    (s : PluginService σ Ctx Body Req Resp Err Ptr) (ctx : Ctx) (apiEndpoint : GoString)
    (v : Target Ptr) (w : σ) :
    requestsDone (expectedCalls s ctx apiEndpoint v w)
      = if (s.client.NewRequestWithContext ctx (lit "GET") apiEndpoint none w).1.2.isNone
        then [((s.client.NewRequestWithContext ctx (lit "GET") apiEndpoint none w).1.1, v)]
        else [] := by
  unfold expectedCalls
  simp only []
  split <;> [split; skip] <;> simp [requestsDone]

/-- Each of the six functions is the common body at the scope in force, the
path of the interface table and the caller's target. -/
theorem Operation.run_eq (x : Externals σ Ctx Resp Err)
    (s : PluginService σ Ctx Body Req Resp Err Ptr) (op : Operation Ctx Ptr) (w : σ) :
    op.run x s w = some (requestAndDecode x s (op.scope x) op.specPath op.target w) := by
  cases op <;>
    simp [Operation.run, Operation.scope, Operation.specPath, Operation.target,
      Jira.GetPlugins, Jira.GetPluginDetails, Jira.GetPluginLicenseDetails,
      GetPluginsWithContext_eq,
      GetPluginDetailsWithContext_eq, GetPluginLicenseDetailsWithContext_eq]

theorem Operation.scope_recording (x : Externals σ Ctx Resp Err) (op : Operation Ctx Ptr) :
    op.scope (x.recording : Externals (σ × List (Call Ctx Body Req Resp Err Ptr)) Ctx Resp Err)
      = op.scope x := by
  cases op <;> rfl

/-- The result of the common body, by the outcome of the two client calls. -/
theorem requestAndDecode_result (x : Externals σ Ctx Resp Err)
    (s : PluginService σ Ctx Body Req Resp Err Ptr) (ctx : Ctx) (apiEndpoint : GoString)
    (v : Target Ptr) (w : σ) :
    (requestAndDecode x s ctx apiEndpoint v w).1 =
      match (s.client.NewRequestWithContext ctx (lit "GET") apiEndpoint none w).1.2 with
      | some e => (none, some e)
      | none =>
        match (s.client.Do (s.client.NewRequestWithContext ctx (lit "GET") apiEndpoint none w).1.1
            v (s.client.NewRequestWithContext ctx (lit "GET") apiEndpoint none w).2).1.2 with
        | some e =>
          ((s.client.Do (s.client.NewRequestWithContext ctx (lit "GET") apiEndpoint none w).1.1
              v (s.client.NewRequestWithContext ctx (lit "GET") apiEndpoint none w).2).1.1,
            (x.NewJiraError
              (s.client.Do (s.client.NewRequestWithContext ctx (lit "GET") apiEndpoint none w).1.1
                v (s.client.NewRequestWithContext ctx (lit "GET") apiEndpoint none w).2).1.1
              (some e)
              (s.client.Do (s.client.NewRequestWithContext ctx (lit "GET") apiEndpoint none w).1.1
                v (s.client.NewRequestWithContext ctx (lit "GET") apiEndpoint none w).2).2).1)
        | none =>
          ((s.client.Do (s.client.NewRequestWithContext ctx (lit "GET") apiEndpoint none w).1.1
              v (s.client.NewRequestWithContext ctx (lit "GET") apiEndpoint none w).2).1.1,
            none) := by
  unfold requestAndDecode
  rcases hr : s.client.NewRequestWithContext ctx (lit "GET") apiEndpoint none w
    with ⟨⟨req, _ | e⟩, w1⟩
  · rcases hd : s.client.Do req v w1 with ⟨⟨resp, _ | e2⟩, w2⟩
    · simp [hd]
    · simp [hd]
  · simp

/-- The URL string each run requests. -/
theorem urlsRequested_details (x : Externals σ Ctx Resp Err)
    (s : PluginService σ Ctx Body Req Resp Err Ptr) (ctx : Ctx) (k : GoString) (p : Ptr)
    (w : σ) :
    (GetPluginDetailsWithContext x.recording s.recording ctx k p (w, [])).map
        (fun out => urlsRequested out.2.2)
      = some [lit "rest/plugins/latest/" ++ k ++ lit "-key"] := by
  rw [GetPluginDetailsWithContext_eq, requestAndDecode_recording]
  simp [urlsRequested, requestsBuilt_expectedCalls]

theorem urlsRequested_license (x : Externals σ Ctx Resp Err)
    (s : PluginService σ Ctx Body Req Resp Err Ptr) (ctx : Ctx) (k : GoString) (p : Ptr)
    (w : σ) :
    (GetPluginLicenseDetailsWithContext x.recording s.recording ctx k p (w, [])).map
        (fun out => urlsRequested out.2.2)
      = some [lit "rest/plugins/latest/" ++ k ++ lit "-key/license"] := by
  rw [GetPluginLicenseDetailsWithContext_eq, requestAndDecode_recording]
  simp [urlsRequested, requestsBuilt_expectedCalls]

theorem urlsRequested_plugins (x : Externals σ Ctx Resp Err)
    (s : PluginService σ Ctx Body Req Resp Err Ptr) (ctx : Ctx) (p : Ptr) (w : σ) :
    urlsRequested (GetPluginsWithContext x.recording s.recording ctx p (w, [])).2.2
      = [lit "rest/plugins/latest/"] := by
  rw [GetPluginsWithContext_eq, requestAndDecode_recording]
  simp [urlsRequested, requestsBuilt_expectedCalls]

/-- No string ending in `-key` is a string ending in `-key/license`. -/
theorem key_ne_license (k1 k2 : GoString) :
    k1 ++ lit "-key" ≠ k2 ++ lit "-key/license" := by
  intro h
  have h2 := congrArg List.reverse h
  rw [List.reverse_append, List.reverse_append] at h2
  have e1 : (lit "-key").reverse = [121, 101, 107, 45] := by decide
  have e2 : (lit "-key/license").reverse
      = [101, 115, 110, 101, 99, 105, 108, 47, 121, 101, 107, 45] := by decide
  rw [e1, e2] at h2
  simp only [List.cons_append, List.cons.injEq] at h2
  exact absurd h2.1 (by decide)

end OperationLemmas

/-! ## Lemmas on UTF-8 -/

/-- A well-formed encoding has between one byte and the bytes there are. -/
theorem runeSize_bounds (s : List UInt8) (n : Nat) (h : runeSize s = some n) :
    0 < n ∧ n ≤ s.length := by
  unfold runeSize at h
  repeat' split at h
  all_goals first
    | (cases h; done)
    | (cases h; simp only [List.length_cons]; omega)

theorem toValidUTF8Aux_of_valid (fuel : Nat) :
    ∀ s : List UInt8, s.length ≤ fuel → ValidStringAux fuel s = true →
      toValidUTF8Aux fuel s = s := by
  induction fuel with
  | zero =>
    intro s hl _
    cases s with
    | nil => rfl
    | cons b r => simp at hl
  | succ fuel ih =>
    intro s hl hv
    cases s with
    | nil => rfl
    | cons b rest =>
      simp only [ValidStringAux, toValidUTF8Aux] at hv ⊢
      cases hn : runeSize (b :: rest) with
      | none => simp [hn] at hv
      | some n =>
        simp only [hn] at hv ⊢
        have hp := runeSize_bounds _ _ hn
        have hlen : ((b :: rest).drop n).length ≤ fuel := by
          simp only [List.length_drop, List.length_cons] at hl ⊢
          omega
        rw [ih _ hlen hv, List.take_append_drop]

/-- Valid UTF-8 passes through `encoding/json` unchanged. -/
theorem toValidUTF8_of_valid (s : GoString) (h : ValidString s = true) : toValidUTF8 s = s :=
  toValidUTF8Aux_of_valid _ _ (Nat.le_refl _) h

/-! ## Lemmas on `Marshal` and `Unmarshal` -/

theorem getElem?_split {α : Type} (pre : List α) (x : α) (post : List α) :
    (pre ++ x :: post)[pre.length]? = some x := by
  induction pre with
  | nil => simp
  | cons a pre ih => simpa using ih

theorem set_split {α : Type} (pre : List α) (x y : α) (post : List α) :
    (pre ++ x :: post).set pre.length y = pre ++ y :: post := by
  induction pre with
  | nil => rfl
  | cons a pre ih => simp [ih]

theorem findExact_split (f : Field) (post : List Field) :
    ∀ pre : List Field, (∀ g ∈ pre, lit g.2.1 ≠ lit f.2.1) →
      findExact (lit f.2.1) (pre ++ f :: post) = some pre.length := by
  intro pre
  induction pre with
  | nil => intro _; simp [findExact]
  | cons g pre ih =>
    intro h
    have hg : lit g.2.1 ≠ lit f.2.1 := h g (by simp)
    have hp : ∀ g2 ∈ pre, lit g2.2.1 ≠ lit f.2.1 := fun g2 m => h g2 (by simp [m])
    simp [findExact, hg, ih hp]

/-- With pairwise different JSON names, the name of a field selects that
field. -/
theorem findField_split (f : Field) (pre post : List Field)
    (h : distinctTags (pre ++ f :: post) = true) :
    findField (pre ++ f :: post) (lit f.2.1) = some pre.length := by
  have hnd : ((pre ++ f :: post).map (fun g => lit g.2.1)).Nodup := by
    simpa [distinctTags] using h
  rw [List.map_append, List.nodup_append] at hnd
  have hpre : ∀ g ∈ pre, lit g.2.1 ≠ lit f.2.1 := by
    intro g hg e
    exact hnd.2.2 (List.mem_map_of_mem _ hg) (by rw [e]; simp)
  simp [findField, findExact_split f post pre hpre]

/-- Slices round-trip when their elements do. -/
theorem elems_roundtrip (e : GoType) (he : modelled e = true) :
    ∀ vs : List GoValue, (∀ v ∈ vs, RoundTrips v) → haveType e vs = true →
      allValidStrings vs = true →
      ∃ js, marshalElems e vs = some js ∧ unmarshalElems e js [] = some vs := by
  intro vs
  induction vs with
  | nil => intro _ _ _; exact ⟨[], by simp [marshalElems], by simp [unmarshalElems]⟩
  | cons v vs ih =>
    intro hr ht hv
    simp only [haveType, allValidStrings, Bool.and_eq_true] at ht hv
    obtain ⟨j, hj, hu⟩ := hr v (by simp) e he ht.1 hv.1
    obtain ⟨js, hjs, hus⟩ := ih (fun x hx => hr x (by simp [hx])) ht.2 hv.2
    refine ⟨j :: js, by simp [marshalElems, hj, hjs], ?_⟩
    simp [unmarshalElems, hu, hus]

/-- Structs round-trip when their field values do: decoding the members of
the fields `post` into a variable whose fields `pre` are already set and
whose fields `post` are still zero sets the fields `post`. -/
theorem fields_roundtrip (all : List Field) (hnd : distinctTags all = true) :
    ∀ (post pre : List Field) (vpre vpost : List GoValue),
      all = pre ++ post → vpre.length = pre.length →
      fieldsModelled post = true → fieldsHaveType post vpost = true →
      allValidStrings vpost = true → (∀ v ∈ vpost, RoundTrips v) →
      ∃ ms, marshalFields post vpost = some ms
        ∧ unmarshalMembers all ms (vpre ++ zeroFields post) = some (vpre ++ vpost) := by
  intro post
  induction post with
  | nil =>
    intro pre vpre vpost _ _ _ ht _ _
    cases vpost with
    | nil => exact ⟨[], by simp [marshalFields], by simp [unmarshalMembers, zeroFields]⟩
    | cons v vs => simp [fieldsHaveType] at ht
  | cons f post ih =>
    intro pre vpre vpost hall hlen hm ht hv hr
    cases vpost with
    | nil => simp [fieldsHaveType] at ht
    | cons v vs =>
      simp only [fieldsHaveType, allValidStrings, fieldsModelled, Bool.and_eq_true] at ht hv hm
      obtain ⟨j, hj, hu⟩ := hr v (by simp) f.2.2 hm.1.2 ht.1 hv.1
      obtain ⟨ms, hms, hums⟩ := ih (pre ++ [f]) (vpre ++ [v]) vs (by simp [hall])
        (by simp [hlen]) hm.2 ht.2 hv.2 (fun x hx => hr x (by simp [hx]))
      refine ⟨(lit f.2.1, j) :: ms, by simp [marshalFields, hj, hms], ?_⟩
      have hfind : findField all (lit f.2.1) = some vpre.length := by
        rw [hall, hlen]
        exact findField_split f pre post (hall ▸ hnd)
      have hget : all[vpre.length]? = some f := by
        rw [hall, hlen]
        exact getElem?_split pre f post
      have hcur : (vpre ++ zeroFields (f :: post))[vpre.length]? = some (zero f.2.2) := by
        simp only [zeroFields]
        exact getElem?_split vpre _ _
      have hset : (vpre ++ zeroFields (f :: post)).set vpre.length v
          = (vpre ++ [v]) ++ zeroFields post := by
        simp only [zeroFields]
        rw [set_split]
        simp
      rw [unmarshalMembers]
      simp only [hfind, hget, hcur, hu, hset, hums]
      simp

theorem roundTrips_of_size : ∀ (n : Nat) (v : GoValue), sizeOf v < n → RoundTrips v := by
  intro n
  induction n with
  | zero => intro v h; omega
  | succ n ih =>
    intro v hsz t hm ht hv
    cases v with
    | string s =>
      cases t <;> simp [hasType] at ht
      simp only [validStrings] at hv
      exact ⟨JSON.string (toValidUTF8 s), by simp [Marshal],
        by simp [Unmarshal, toValidUTF8_of_valid s hv]⟩
    | bool b =>
      cases t <;> simp [hasType] at ht
      exact ⟨JSON.bool b, by simp [Marshal], by simp [Unmarshal]⟩
    | int i =>
      cases t <;> simp [hasType] at ht
      · exact ⟨JSON.number i, by simp [Marshal], by simp [Unmarshal, ht]⟩
      · exact ⟨JSON.number i, by simp [Marshal], by simp [Unmarshal, ht]⟩
    | nilSlice =>
      cases t <;> simp [hasType] at ht
      exact ⟨JSON.null, by simp [Marshal], by simp [Unmarshal]⟩
    | slice xs =>
      cases t <;> simp [hasType] at ht
      rename_i e
      simp only [validStrings] at hv
      simp only [modelled] at hm
      have hr : ∀ x ∈ xs, RoundTrips x := by
        intro x hx
        apply ih
        have := List.sizeOf_lt_of_mem hx
        simp only [GoValue.slice.sizeOf_spec] at hsz
        omega
      obtain ⟨js, hjs, hus⟩ := elems_roundtrip e hm xs hr ht hv
      exact ⟨JSON.array js, by simp [Marshal, hjs], by simp [Unmarshal, zero, hus]⟩
    | struct vs =>
      cases t <;> simp [hasType] at ht
      rename_i fs
      simp only [validStrings] at hv
      simp only [modelled, Bool.and_eq_true] at hm
      have hr : ∀ x ∈ vs, RoundTrips x := by
        intro x hx
        apply ih
        have := List.sizeOf_lt_of_mem hx
        simp only [GoValue.struct.sizeOf_spec] at hsz
        omega
      obtain ⟨ms, hms, hums⟩ := fields_roundtrip fs hm.2 fs [] [] vs rfl rfl hm.1 ht hv hr
      simp only [List.nil_append] at hums
      exact ⟨JSON.object ms, by simp [Marshal, hms], by simp [Unmarshal, zero, hums]⟩

/-- Every well-typed value with valid UTF-8 strings round-trips at every
modelled type. -/
theorem Marshal_Unmarshal (t : GoType) (v : GoValue) (hm : modelled t = true)
    (ht : hasType t v = true) (hv : validStrings v = true) :
    ∃ j, Marshal t v = some j ∧ Unmarshal t j (zero t) = some v :=
  roundTrips_of_size (sizeOf v + 1) v (Nat.lt_succ_self _) t hm ht hv

/-- The three declarations are within the model: exported fields, plain
tags, no JSON name twice in one struct. -/
theorem modelled_declarations :
    ∀ t ∈ [PluginStruct, PluginDetails, PluginLicenseDetails], modelled t = true := by
  intro t ht
  simp only [List.mem_cons, List.mem_singleton, List.not_mem_nil, or_false] at ht
  rcases ht with rfl | rfl | rfl <;> rfl

/-! ## The claims -/

section Claims

variable {σ Ctx Body Req Resp Err Ptr : Type}

/-- C1: for every plugin key, context, target, client and world,
`GetPluginDetailsWithContext` returns, and the one request it asks the client
to build is (the caller's context, method `GET`, path
`rest/plugins/latest/` ++ key ++ `-key`, no body): the key's bytes appear
unchanged between the two literals.  For the key `jira-core` the path is
`rest/plugins/latest/jira-core-key`. -/
theorem GetPluginDetailsWithContext_request (x : Externals σ Ctx Resp Err)
    (s : PluginService σ Ctx Body Req Resp Err Ptr) (ctx : Ctx) (pluginKey : GoString)
    (plugin : Ptr) (w : σ) :
    (GetPluginDetailsWithContext x.recording s.recording ctx pluginKey plugin (w, [])).map
        (fun out => requestsBuilt out.2.2)
      = some [(ctx, lit "GET", lit "rest/plugins/latest/" ++ pluginKey ++ lit "-key", none)]
    ∧ (GetPluginDetailsWithContext x.recording s.recording ctx (lit "jira-core") plugin
          (w, [])).map (fun out => requestsBuilt out.2.2)
      = some [(ctx, lit "GET", lit "rest/plugins/latest/jira-core-key", none)] := by
  have key : ∀ k : GoString,
      (GetPluginDetailsWithContext x.recording s.recording ctx k plugin (w, [])).map
        (fun out => requestsBuilt out.2.2)
      = some [(ctx, lit "GET", lit "rest/plugins/latest/" ++ k ++ lit "-key", none)] := by
    intro k
    rw [GetPluginDetailsWithContext_eq, requestAndDecode_recording]
    simp [requestsBuilt_expectedCalls]
  refine ⟨key pluginKey, ?_⟩
  rw [key]
  have h : lit "rest/plugins/latest/" ++ lit "jira-core" ++ lit "-key"
      = lit "rest/plugins/latest/jira-core-key" := by decide
  rw [h]

/-- C2: for every plugin key, context, target, client and world,
`GetPluginLicenseDetailsWithContext` returns, and the one request it asks the
client to build is (the caller's context, method `GET`, path
`rest/plugins/latest/` ++ key ++ `-key/license`, no body); its path is the
path `GetPluginDetailsWithContext` requests for the same key followed by
`/license`.  For the key `jira-core` the path is
`rest/plugins/latest/jira-core-key/license`. -/
theorem GetPluginLicenseDetailsWithContext_request (x : Externals σ Ctx Resp Err)
    (s : PluginService σ Ctx Body Req Resp Err Ptr) (ctx : Ctx) (pluginKey : GoString)
    (plugin : Ptr) (w : σ) :
    (GetPluginLicenseDetailsWithContext x.recording s.recording ctx pluginKey plugin
          (w, [])).map (fun out => requestsBuilt out.2.2)
      = some [(ctx, lit "GET", lit "rest/plugins/latest/" ++ pluginKey ++ lit "-key/license",
          none)]
    ∧ (GetPluginLicenseDetailsWithContext x.recording s.recording ctx pluginKey plugin
          (w, [])).map (fun out => urlsRequested out.2.2)
      = (GetPluginDetailsWithContext x.recording s.recording ctx pluginKey plugin
          (w, [])).map (fun out => (urlsRequested out.2.2).map (fun u => u ++ lit "/license"))
    ∧ (GetPluginLicenseDetailsWithContext x.recording s.recording ctx (lit "jira-core") plugin
          (w, [])).map (fun out => requestsBuilt out.2.2)
      = some [(ctx, lit "GET", lit "rest/plugins/latest/jira-core-key/license", none)] := by
  have key : ∀ k : GoString,
      (GetPluginLicenseDetailsWithContext x.recording s.recording ctx k plugin (w, [])).map
        (fun out => requestsBuilt out.2.2)
      = some [(ctx, lit "GET", lit "rest/plugins/latest/" ++ k ++ lit "-key/license", none)] := by
    intro k
    rw [GetPluginLicenseDetailsWithContext_eq, requestAndDecode_recording]
    simp [requestsBuilt_expectedCalls]
  refine ⟨key pluginKey, ?_, ?_⟩
  · rw [GetPluginLicenseDetailsWithContext_eq, GetPluginDetailsWithContext_eq,
      requestAndDecode_recording, requestAndDecode_recording]
    have h : lit "-key/license" = lit "-key" ++ lit "/license" := by decide
    simp [urlsRequested, requestsBuilt_expectedCalls, h]
  · rw [key]
    have h : lit "rest/plugins/latest/" ++ lit "jira-core" ++ lit "-key/license"
        = lit "rest/plugins/latest/jira-core-key/license" := by decide
    rw [h]

/-- C3: for every context, target, client and world, the one request
`GetPluginsWithContext` asks the client to build is (the caller's context,
method `GET`, path `rest/plugins/latest/`, no body), and the one `GetPlugins`
asks for is the same with the background context: the path depends on no
input. -/
theorem GetPlugins_request (x : Externals σ Ctx Resp Err)
    (s : PluginService σ Ctx Body Req Resp Err Ptr) (ctx : Ctx) (plugins : Ptr) (w : σ) :
    requestsBuilt (GetPluginsWithContext x.recording s.recording ctx plugins (w, [])).2.2
      = [(ctx, lit "GET", lit "rest/plugins/latest/", none)]
    ∧ requestsBuilt (GetPlugins x.recording s.recording plugins (w, [])).2.2
      = [(x.Background, lit "GET", lit "rest/plugins/latest/", none)] := by
  constructor
  · rw [GetPluginsWithContext_eq, requestAndDecode_recording]
    simp [requestsBuilt_expectedCalls]
  · unfold GetPlugins
    rw [GetPluginsWithContext_eq, requestAndDecode_recording]
    simp [requestsBuilt_expectedCalls, Externals.recording]

/-- C4: for each of the six functions, if request construction gave no
error and `Do` returned `(resp, err)` with `err` non-nil, the function
returns exactly `(resp, NewJiraError(resp, err))`: the handle is the one `Do`
returned, and the error is non-nil provided `NewJiraError` maps a non-nil
cause to a non-nil error. -/
theorem Operation.run_of_Do_error (x : Externals σ Ctx Resp Err)
    (s : PluginService σ Ctx Body Req Resp Err Ptr) (op : Operation Ctx Ptr) (w : σ) (e : Err)
    (hreq : (op.built x s w).1.2 = none) (hdo : (op.done x s w).1.2 = some e) :
    (op.run x s w).map Prod.fst
      = some ((op.done x s w).1.1,
          (x.NewJiraError (op.done x s w).1.1 (some e) (op.done x s w).2).1)
    ∧ ((∀ resp cause w2, (x.NewJiraError resp (some cause) w2).1 ≠ none) →
        (op.run x s w).map (fun out => out.1.2.isSome) = some true) := by
  have h := requestAndDecode_result x s (op.scope x) op.specPath op.target w
  unfold Operation.built at hreq
  unfold Operation.done Operation.built at hdo
  rw [hreq] at h
  simp only [hdo] at h
  have h1 : (op.run x s w).map Prod.fst
      = some ((op.done x s w).1.1,
          (x.NewJiraError (op.done x s w).1.1 (some e) (op.done x s w).2).1) := by
    rw [Operation.run_eq, Option.map_some', h]
    rfl
  refine ⟨h1, fun hne => ?_⟩
  rw [Operation.run_eq, Option.map_some', h]
  simp only [Option.some.injEq]
  exact Option.isSome_iff_ne_none.mpr (hne _ _ _)

/-- C4, on the stub transport answering 404 to `GetPluginDetails("jira-core")`:
the handle with status 404 is returned with the wrapped status error. -/
theorem Operation.run_of_Do_error_witness :
    ((Operation.GetPluginDetails (lit "jira-core") 7).run stubExternals
        (stubService false 404 false) 0).map Prod.fst
      = some (some 404, some (StubErr.jira (some 404) (StubErr.status 404)))
    ∧ ((Operation.GetPluginDetails (lit "jira-core") 7).run stubExternals
        (stubService false 404 false) 0).map (fun out => out.1.2.isSome) = some true :=
  have h := Operation.run_of_Do_error stubExternals (stubService false 404 false)
    (Operation.GetPluginDetails (lit "jira-core") 7) 0 (StubErr.status 404)
    (by decide) (by decide)
  ⟨h.1.trans (by decide), h.2 (by intro resp cause w2; simp [stubExternals])⟩

/-- C5: for each of the six functions, if `NewRequestWithContext` returns the
error `e`, the function returns `(nil, e)`, with `e` unchanged and no
response handle, in the world request construction left. -/
theorem Operation.run_of_build_error (x : Externals σ Ctx Resp Err)
    (s : PluginService σ Ctx Body Req Resp Err Ptr) (op : Operation Ctx Ptr) (w : σ) (e : Err)
    (hreq : (op.built x s w).1.2 = some e) :
    op.run x s w = some ((none, some e), (op.built x s w).2) := by
  rw [Operation.run_eq]
  unfold Operation.built at hreq ⊢
  unfold requestAndDecode
  rcases hr : s.client.NewRequestWithContext (op.scope x) (lit "GET") op.specPath none w
    with ⟨⟨req, _ | e2⟩, w1⟩
  · rw [hr] at hreq
    cases hreq
  · rw [hr] at hreq
    simp only [Option.some.injEq] at hreq
    simp [hreq]

/-- C5, on the stub transport that cannot build a request: each of
`GetPlugins`, `GetPluginLicenseDetails` returns `(nil, construct)`. -/
theorem Operation.run_of_build_error_witness :
    (Operation.GetPluginLicenseDetails (lit "jira-core") 7).run stubExternals
        (stubService true 200 false) 0
      = some ((none, some StubErr.construct), 0) :=
  (Operation.run_of_build_error stubExternals (stubService true 200 false)
    (Operation.GetPluginLicenseDetails (lit "jira-core") 7) 0 StubErr.construct
    (by decide)).trans (by decide)

/-- C6: for each of the six functions and every input, assuming `NewJiraError`
returns a non-nil error for a non-nil cause: the function returns; its error
is nil exactly when request construction and `Do` both gave no error, and
then the returned handle is the one `Do` returned; a non-nil returned error
is the construction error itself or `NewJiraError` of the error of `Do`. -/
theorem Operation.run_error_iff (x : Externals σ Ctx Resp Err)
    (s : PluginService σ Ctx Body Req Resp Err Ptr)
    (hNJE : ∀ resp cause w2, (x.NewJiraError resp (some cause) w2).1 ≠ none)
    (op : Operation Ctx Ptr) (w : σ) :
    ∃ out, op.run x s w = some out
      ∧ (out.1.2 = none ↔ (op.built x s w).1.2 = none ∧ (op.done x s w).1.2 = none)
      ∧ (out.1.2 = none → out.1.1 = (op.done x s w).1.1)
      ∧ (out.1.2 ≠ none →
          (out.1.2 = (op.built x s w).1.2
            ∨ ((op.built x s w).1.2 = none ∧ (op.done x s w).1.2 ≠ none
                ∧ out.1.2 = (x.NewJiraError (op.done x s w).1.1 (op.done x s w).1.2
                    (op.done x s w).2).1))) := by
  refine ⟨_, Operation.run_eq x s op w, ?_⟩
  have h := requestAndDecode_result x s (op.scope x) op.specPath op.target w
  unfold Operation.done Operation.built
  rcases hr : s.client.NewRequestWithContext (op.scope x) (lit "GET") op.specPath none w
    with ⟨⟨req, _ | e2⟩, w1⟩
  · rcases hd : s.client.Do req op.target w1 with ⟨⟨resp, _ | e3⟩, w2⟩
    · simp [hr, hd] at h
      simp [h]
    · simp [hr, hd] at h
      simp [h, hNJE]
  · simp [hr] at h
    simp [h]

/-- C6, on the stub transport: with status 200 and a well-formed body the
error is nil and the handle is the one of `Do`; with a malformed body the
error is the wrapped decode error. -/
theorem Operation.run_error_iff_witness :
    (∃ out, (Operation.GetPlugins 7).run stubExternals (stubService false 200 false) 0
        = some out ∧ out.1 = (some 200, none))
    ∧ (∃ out, (Operation.GetPlugins 7).run stubExternals (stubService false 200 true) 0
        = some out ∧ out.1 = (some 200, some (StubErr.jira (some 200) StubErr.decode))) := by
  have hN : ∀ (resp : Option Nat) (cause : StubErr) (w2 : Nat),
      (stubExternals.NewJiraError resp (some cause) w2).1 ≠ none := by
    intro resp cause w2
    simp [stubExternals]
  obtain ⟨out, h, -, -, -⟩ := Operation.run_error_iff stubExternals
    (stubService false 200 false) hN (Operation.GetPlugins 7) 0
  obtain ⟨out2, h2, -, -, -⟩ := Operation.run_error_iff stubExternals
    (stubService false 200 true) hN (Operation.GetPlugins 7) 0
  refine ⟨⟨out, h, ?_⟩, ⟨out2, h2, ?_⟩⟩
  · have e : (Operation.GetPlugins 7).run stubExternals (stubService false 200 false) 0
        = some ((some 200, none), 1) := by decide
    rw [e] at h
    cases h
    rfl
  · have e : (Operation.GetPlugins 7).run stubExternals (stubService false 200 true) 0
        = some ((some 200, some (StubErr.jira (some 200) StubErr.decode)), 1) := by decide
    rw [e] at h2
    cases h2
    rfl

/-- C7: each default variant equals its context-aware variant called with
the background context and the same arguments, on every client and world;
on the recording client this is equality of the calls made too (same method,
path, decode target) along with the returned handle and error. -/
theorem default_variant_eq (x : Externals σ Ctx Resp Err)
    (s : PluginService σ Ctx Body Req Resp Err Ptr) (pluginName : GoString) (p : Ptr) (w : σ) :
    GetPlugins x s p w = GetPluginsWithContext x s x.Background p w
    ∧ GetPluginDetails x s pluginName p w
        = GetPluginDetailsWithContext x s x.Background pluginName p w
    ∧ GetPluginLicenseDetails x s pluginName p w
        = GetPluginLicenseDetailsWithContext x s x.Background pluginName p w
    ∧ GetPlugins x.recording s.recording p (w, [])
        = GetPluginsWithContext x.recording s.recording x.Background p (w, [])
    ∧ GetPluginDetails x.recording s.recording pluginName p (w, [])
        = GetPluginDetailsWithContext x.recording s.recording x.Background pluginName p (w, [])
    ∧ GetPluginLicenseDetails x.recording s.recording pluginName p (w, [])
        = GetPluginLicenseDetailsWithContext x.recording s.recording x.Background pluginName p
            (w, []) :=
  ⟨rfl, rfl, rfl, rfl, rfl, rfl⟩

/-- C8, as stated, fails: the `PluginStruct` value `invalidSelf`, whose
`Links.Self` is the byte `0xFF`, is a value of the type, marshals, and the
document decodes into a fresh `PluginStruct` as `replacedSelf`, whose
`Links.Self` is U+FFFD, a different value. -/
theorem json_roundtrip_invalid_utf8 :
    hasType PluginStruct invalidSelf = true
    ∧ ∃ j, Marshal PluginStruct invalidSelf = some j
      ∧ Unmarshal PluginStruct j (zero PluginStruct) = some replacedSelf
      ∧ replacedSelf ≠ invalidSelf := by
  refine ⟨by rfl, _, by rfl, by rfl, ?_⟩
  intro h
  simp [replacedSelf, invalidSelf] at h

/-- C8, amended: for each of `PluginStruct`, `PluginDetails` and
`PluginLicenseDetails` and every value of the type whose strings are all
valid UTF-8, the value marshals to JSON under the declared names, and
decoding the document into a fresh value of the type yields the value
itself, nested records and ordered sequences included. -/
theorem json_roundtrip (t : GoType)
    (ht : t ∈ [PluginStruct, PluginDetails, PluginLicenseDetails]) (v : GoValue)
    (hv : hasType t v = true) (hutf : validStrings v = true) :
    ∃ j, Marshal t v = some j ∧ Unmarshal t j (zero t) = some v :=
  Marshal_Unmarshal t v (modelled_declarations t ht) hv hutf

/-- C8, amended, on the populated `PluginStruct` value `samplePlugins`. -/
theorem json_roundtrip_witness :
    ∃ j, Marshal PluginStruct samplePlugins = some j
      ∧ Unmarshal PluginStruct j (zero PluginStruct) = some samplePlugins :=
  json_roundtrip PluginStruct (by simp) samplePlugins (by rfl) (by rfl)

/-- C9: in every run of each of the six functions the calls made are exactly
those of `expectedCalls`: `NewRequestWithContext` once; `Do` once if request
construction gave no error and not at all otherwise, on the request just
built and the caller's own target; `NewJiraError` after a failed `Do`.  The
result and the world are those of the unrecorded run, and the world is the
one the last of these calls left. -/
theorem Operation.run_calls (x : Externals σ Ctx Resp Err)
    (s : PluginService σ Ctx Body Req Resp Err Ptr) (op : Operation Ctx Ptr) (w : σ) :
    ∃ out log, op.run x s w = some out
      ∧ op.run x.recording s.recording (w, []) = some (out.1, (out.2, log))
      ∧ log = expectedCalls s (op.scope x) op.specPath op.target w
      ∧ (requestsBuilt log).length = 1
      ∧ requestsDone log
          = (if (op.built x s w).1.2.isNone then [((op.built x s w).1.1, op.target)] else [])
      ∧ out.2 = expectedWorld x s (op.scope x) op.specPath op.target w := by
  refine ⟨_, _, Operation.run_eq x s op w, ?_, rfl, ?_, ?_, ?_⟩
  · rw [Operation.run_eq, Operation.scope_recording, requestAndDecode_recording]
    simp
  · rw [requestsBuilt_expectedCalls]
    rfl
  · rw [requestsDone_expectedCalls]
    rfl
  · exact requestAndDecode_world x s _ _ _ w

/-- C10: the endpoint paths never collide.  Whatever the contexts, targets
and worlds of the runs: two runs of `GetPluginDetailsWithContext` requesting
the same path have the same key, likewise two runs of
`GetPluginLicenseDetailsWithContext`; and the paths requested by
`GetPluginsWithContext`, by `GetPluginDetailsWithContext` on any key `k1` and
by `GetPluginLicenseDetailsWithContext` on any key `k2` are pairwise
different. -/
theorem endpoint_paths_distinct (x : Externals σ Ctx Resp Err)
    (s : PluginService σ Ctx Body Req Resp Err Ptr) (ctx1 ctx2 : Ctx) (k1 k2 : GoString)
    (p1 p2 : Ptr) (w1 w2 : σ) :
    ((GetPluginDetailsWithContext x.recording s.recording ctx1 k1 p1 (w1, [])).map
          (fun out => urlsRequested out.2.2)
        = (GetPluginDetailsWithContext x.recording s.recording ctx2 k2 p2 (w2, [])).map
          (fun out => urlsRequested out.2.2) → k1 = k2)
    ∧ ((GetPluginLicenseDetailsWithContext x.recording s.recording ctx1 k1 p1 (w1, [])).map
          (fun out => urlsRequested out.2.2)
        = (GetPluginLicenseDetailsWithContext x.recording s.recording ctx2 k2 p2 (w2, [])).map
          (fun out => urlsRequested out.2.2) → k1 = k2)
    ∧ (GetPluginDetailsWithContext x.recording s.recording ctx1 k1 p1 (w1, [])).map
          (fun out => urlsRequested out.2.2)
        ≠ some (urlsRequested
            (GetPluginsWithContext x.recording s.recording ctx2 p2 (w2, [])).2.2)
    ∧ (GetPluginLicenseDetailsWithContext x.recording s.recording ctx1 k2 p1 (w1, [])).map
          (fun out => urlsRequested out.2.2)
        ≠ some (urlsRequested
            (GetPluginsWithContext x.recording s.recording ctx2 p2 (w2, [])).2.2)
    ∧ (GetPluginDetailsWithContext x.recording s.recording ctx1 k1 p1 (w1, [])).map
          (fun out => urlsRequested out.2.2)
        ≠ (GetPluginLicenseDetailsWithContext x.recording s.recording ctx2 k2 p2 (w2, [])).map
          (fun out => urlsRequested out.2.2) := by
  simp only [urlsRequested_details, urlsRequested_license, urlsRequested_plugins]
  refine ⟨?_, ?_, ?_, ?_, ?_⟩
  · intro h
    simp only [Option.some.injEq, List.cons.injEq, and_true, List.append_assoc] at h
    exact List.append_cancel_right (List.append_cancel_left h)
  · intro h
    simp only [Option.some.injEq, List.cons.injEq, and_true, List.append_assoc] at h
    exact List.append_cancel_right (List.append_cancel_left h)
  · intro h
    simp only [Option.some.injEq, List.cons.injEq, and_true, List.append_assoc] at h
    have h2 : k1 ++ lit "-key" = [] :=
      List.append_cancel_left (h.trans (List.append_nil _).symm)
    have h3 := congrArg List.length h2
    simp [show (lit "-key").length = 4 by decide] at h3
  · intro h
    simp only [Option.some.injEq, List.cons.injEq, and_true, List.append_assoc] at h
    have h2 : k2 ++ lit "-key/license" = [] :=
      List.append_cancel_left (h.trans (List.append_nil _).symm)
    have h3 := congrArg List.length h2
    simp [show (lit "-key/license").length = 12 by decide] at h3
  · intro h
    simp only [Option.some.injEq, List.cons.injEq, and_true, List.append_assoc] at h
    exact key_ne_license k1 k2 (List.append_cancel_left h)

/-- C10, on the stub transport: a details key ending in `-key/license`
against a license key ending in `-key`, and the empty key against the list
path, request different paths; two runs on the key `jira-core` from
different worlds request the same path. -/
theorem endpoint_paths_distinct_witness :
    (GetPluginDetailsWithContext stubExternals.recording
          (stubService false 200 false).recording () (lit "a-key/license") 7 (0, [])).map
        (fun out => urlsRequested out.2.2)
      ≠ (GetPluginLicenseDetailsWithContext stubExternals.recording
          (stubService false 200 false).recording () (lit "a-key") 7 (0, [])).map
        (fun out => urlsRequested out.2.2)
    ∧ (GetPluginDetailsWithContext stubExternals.recording
          (stubService false 200 false).recording () (lit "") 7 (0, [])).map
        (fun out => urlsRequested out.2.2)
      ≠ some (urlsRequested (GetPluginsWithContext stubExternals.recording
          (stubService false 200 false).recording () 7 (0, [])).2.2)
    ∧ ((GetPluginDetailsWithContext stubExternals.recording
          (stubService false 200 false).recording () (lit "jira-core") 7 (0, [])).map
        (fun out => urlsRequested out.2.2)
      = (GetPluginDetailsWithContext stubExternals.recording
          (stubService false 200 false).recording () (lit "jira-core") 9 (5, [])).map
        (fun out => urlsRequested out.2.2)
      ∧ (lit "jira-core" : GoString) = lit "jira-core") :=
  have h := endpoint_paths_distinct stubExternals (stubService false 200 false) () ()
    (lit "a-key/license") (lit "a-key") 7 7 0 0
  have h0 := endpoint_paths_distinct stubExternals (stubService false 200 false) () ()
    (lit "") (lit "") 7 7 0 0
  have h1 := endpoint_paths_distinct stubExternals (stubService false 200 false) () ()
    (lit "jira-core") (lit "jira-core") 7 9 0 5
  ⟨h.2.2.2.2, h0.2.2.1, by decide, h1.1 (by decide)⟩

end Claims

end Jira
